import Mathlib

/-!
Verification of the webhook receiver's core utilities (signature
verification, XML normalization, content-type dispatch), as a shallow
embedding of `app.py` in Lean 4.

Modelling conventions:
- Python byte strings are `List Nat` (each element a byte value).
- Python `dict` values produced by the code are the inductive `XVal`
  (string / number / ordered list / insertion-ordered object).
- Python dicts are insertion-ordered association lists; `dGet` / `dSet`
  mirror `d[k]` lookup and `d[k] = v` assignment.
- Machine 32-bit arithmetic in SHA-256 is `Nat` reduced mod 2^32.
-/

/-- Dynamic value type for decoded payloads: Python strings, numbers,
lists, and insertion-ordered dicts as produced by `app.py`. -/
inductive XVal where
  | str : String → XVal
  | num : Nat → XVal
  | list : List XVal → XVal
  | obj : List (String × XVal) → XVal
deriving Repr

/-- Python dict lookup `d[k]` on an insertion-ordered association list:
first binding of the key wins (keys are unique by construction of `dSet`). -/
def dGet (d : List (String × XVal)) (k : String) : Option XVal :=
  match d with
  | [] => none
  | (k', v) :: rest => if k' = k then some v else dGet rest k

/-- Python dict assignment `d[k] = v`: replace in place if the key exists,
otherwise append at the end (insertion order). -/
def dSet (d : List (String × XVal)) (k : String) (v : XVal) : List (String × XVal) :=
  match d with
  | [] => [(k, v)]
  | (k', v') :: rest => if k' = k then (k', v) :: rest else (k', v') :: dSet rest k v

/-- Reduction of a natural number to a 32-bit word, `n % 2^32`. -/
def w32 (n : Nat) : Nat := n % 4294967296

/-- Right rotation of a 32-bit word by `n` bits. -/
def rotr (x n : Nat) : Nat := w32 ((x >>> n) ||| (x <<< (32 - n)))

/-- SHA-256 small sigma-0: `rotr 7 xor rotr 18 xor shr 3`. -/
def ssig0 (x : Nat) : Nat := w32 ((rotr x 7) ^^^ (rotr x 18) ^^^ (x >>> 3))

/-- SHA-256 small sigma-1: `rotr 17 xor rotr 19 xor shr 10`. -/
def ssig1 (x : Nat) : Nat := w32 ((rotr x 17) ^^^ (rotr x 19) ^^^ (x >>> 10))

/-- SHA-256 big Sigma-0: `rotr 2 xor rotr 13 xor rotr 22`. -/
def bsig0 (x : Nat) : Nat := w32 ((rotr x 2) ^^^ (rotr x 13) ^^^ (rotr x 22))

/-- SHA-256 big Sigma-1: `rotr 6 xor rotr 11 xor rotr 25`. -/
def bsig1 (x : Nat) : Nat := w32 ((rotr x 6) ^^^ (rotr x 11) ^^^ (rotr x 25))

/-- SHA-256 choice function `(x and y) xor (not x and z)` on 32-bit words. -/
def chWord (x y z : Nat) : Nat := w32 ((x &&& y) ^^^ ((x ^^^ 4294967295) &&& z))

/-- SHA-256 majority function `(x and y) xor (x and z) xor (y and z)`. -/
def majWord (x y z : Nat) : Nat := w32 ((x &&& y) ^^^ (x &&& z) ^^^ (y &&& z))

/-- SHA-256 round constants (first 32 bits of the fractional parts of the
cube roots of the first 64 primes). -/
def K64 : List Nat :=
  [1116352408, 1899447441, 3049323471, 3921009573, 961987163,
   1508970993, 2453635748, 2870763221, 3624381080, 310598401,
   607225278, 1426881987, 1925078388, 2162078206, 2614888103,
   3248222580, 3835390401, 4022224774, 264347078, 604807628,
   770255983, 1249150122, 1555081692, 1996064986, 2554220882,
   2821834349, 2952996808, 3210313671, 3336571891, 3584528711,
   113926993, 338241895, 666307205, 773529912, 1294757372,
   1396182291, 1695183700, 1986661051, 2177026350, 2456956037,
   2730485921, 2820302411, 3259730800, 3345764771, 3516065817,
   3600352804, 4094571909, 275423344, 430227734, 506948616,
   659060556, 883997877, 958139571, 1322822218, 1537002063,
   1747873779, 1955562222, 2024104815, 2227730452, 2361852424,
   2428436474, 2756734187, 3204031479, 3329325298]

/-- Working state of the SHA-256 compression function (eight 32-bit words). -/
structure H8 where
  a : Nat
  b : Nat
  c : Nat
  d : Nat
  e : Nat
  f : Nat
  g : Nat
  h : Nat
deriving Repr

/-- SHA-256 initial hash value (fractional parts of square roots of the
first eight primes). -/
def sha256init : H8 :=
  ⟨1779033703, 3144134277, 1013904242, 2773480762,
   1359893119, 2600822924, 528734635, 1541459225⟩

/-- One SHA-256 round on the working state with round constant `k` and
schedule word `w`. -/
def sha256round (s : H8) (k w : Nat) : H8 :=
  let t1 := w32 (s.h + bsig1 s.e + chWord s.e s.f s.g + k + w)
  let t2 := w32 (bsig0 s.a + majWord s.a s.b s.c)
  ⟨w32 (t1 + t2), s.a, s.b, s.c, w32 (s.d + t1), s.e, s.f, s.g⟩

/-- Big-endian decoding of bytes into 32-bit words, four bytes per word. -/
def bytesToWords : List Nat → List Nat
  | b0 :: b1 :: b2 :: b3 :: rest =>
    (((b0 * 256 + b1) * 256 + b2) * 256 + b3) :: bytesToWords rest
  | _ => []

/-- Message-schedule extension: appends `n` further schedule words to `w`. -/
def extendW (w : List Nat) : Nat → List Nat
  | 0 => w
  | n + 1 =>
    let i := w.length
    let wi := w32 (ssig1 (w.getD (i - 2) 0) + w.getD (i - 7) 0 +
                   ssig0 (w.getD (i - 15) 0) + w.getD (i - 16) 0)
    extendW (w ++ [wi]) n

/-- SHA-256 compression of one 64-byte block into the chaining state. -/
def sha256compress (hs : H8) (block : List Nat) : H8 :=
  let ws := extendW (bytesToWords block) 48
  let s := (List.zip K64 ws).foldl (fun s p => sha256round s p.1 p.2) hs
  ⟨w32 (hs.a + s.a), w32 (hs.b + s.b), w32 (hs.c + s.c), w32 (hs.d + s.d),
   w32 (hs.e + s.e), w32 (hs.f + s.f), w32 (hs.g + s.g), w32 (hs.h + s.h)⟩

/-- Big-endian encoding of a 64-bit length into eight bytes. -/
def be64 (n : Nat) : List Nat :=
  [(n >>> 56) % 256, (n >>> 48) % 256, (n >>> 40) % 256, (n >>> 32) % 256,
   (n >>> 24) % 256, (n >>> 16) % 256, (n >>> 8) % 256, n % 256]

/-- Big-endian encoding of a 32-bit word into four bytes. -/
def be32 (n : Nat) : List Nat :=
  [(n >>> 24) % 256, (n >>> 16) % 256, (n >>> 8) % 256, n % 256]

/-- SHA-256 padding: append `0x80`, zero bytes up to 56 mod 64, then the
bit length as a big-endian 64-bit integer. -/
def sha256pad (msg : List Nat) : List Nat :=
  msg ++ (128 :: List.replicate ((119 - msg.length % 64) % 64) 0) ++ be64 (msg.length * 8)

/-- Splitting a byte sequence into chunks of 64 bytes. -/
def chunks64 : List Nat → List (List Nat)
  | [] => []
  | x :: rest => (x :: rest.take 63) :: chunks64 (rest.drop 63)
termination_by l => l.length
decreasing_by
  simp only [List.length_drop, List.length_cons]
  omega

/-- SHA-256 digest of a byte sequence, as 32 bytes. -/
def sha256 (msg : List Nat) : List Nat :=
  let hf := (chunks64 (sha256pad msg)).foldl sha256compress sha256init
  be32 hf.a ++ be32 hf.b ++ be32 hf.c ++ be32 hf.d ++
  be32 hf.e ++ be32 hf.f ++ be32 hf.g ++ be32 hf.h

/-- HMAC-SHA256 of `msg` under `key` (RFC 2104 with 64-byte block size),
the algorithm behind Python's `hmac.new(key, msg, hashlib.sha256)`. -/
def hmacSha256 (key msg : List Nat) : List Nat :=
  let k0 := if key.length > 64 then sha256 key else key
  let kp := k0 ++ List.replicate (64 - k0.length) 0
  let ipadKey := kp.map (fun b => b ^^^ 54)
  let opadKey := kp.map (fun b => b ^^^ 92)
  sha256 (opadKey ++ sha256 (ipadKey ++ msg))

/-- Lower-case hex digit for a value below 16. -/
def hexDigit (n : Nat) : Char :=
  if n < 10 then Char.ofNat (48 + n) else Char.ofNat (87 + n)

/-- Lower-case hex encoding of a byte sequence, Python's `.hexdigest()`. -/
def hexdigest (bs : List Nat) : String :=
  ⟨bs.foldr (fun b acc => hexDigit (b / 16) :: hexDigit (b % 16) :: acc) []⟩

/-- UTF-8 encoding of a single code point. -/
def encodeCharUtf8 (n : Nat) : List Nat :=
  if n < 128 then [n]
  else if n < 2048 then [192 + n / 64, 128 + n % 64]
  else if n < 65536 then [224 + n / 4096, 128 + (n / 64) % 64, 128 + n % 64]
  else [240 + n / 262144, 128 + (n / 4096) % 64, 128 + (n / 64) % 64, 128 + n % 64]

/-- UTF-8 encoding of a string, Python's `s.encode('utf-8')`. -/
def strToBytes (s : String) : List Nat :=
  s.data.foldr (fun c acc => encodeCharUtf8 c.toNat ++ acc) []

/-- Hex HMAC-SHA256 of byte payload under a string secret:
`hmac.new(secret.encode('utf-8'), payload, hashlib.sha256).hexdigest()`. -/
def hmacSha256Hex (secret : String) (payload : List Nat) : String :=
  hexdigest (hmacSha256 (strToBytes secret) payload)

/-- ASCII test for a string: every character below code point 128. -/
def isAsciiStr (s : String) : Bool := s.data.all (fun c => c.toNat < 128)

/-- Constant-time string comparison `hmac.compare_digest` on `str`
arguments: raises `TypeError` (the `Except.error` outcome) when either
string holds a non-ASCII character, otherwise returns their equality
(timing is out of scope, so the comparison is modelled by its result). -/
def compare_digest (a b : String) : Except String Bool :=
  if isAsciiStr a && isAsciiStr b then Except.ok (a == b)
  else Except.error "comparing strings with non-ASCII characters is not supported"

/-- Embedding of `verify_signature(payload, signature, secret)` from
`app.py`. The header value is `Option String` (`none` when the header is
absent); Python's `not signature` is true exactly when the signature is
`None` or the empty string, and `not secret` when the secret is empty.
The `Except.error` outcome is the `TypeError` that `compare_digest`
raises on a non-ASCII signature and that propagates out of the function. -/
def verify_signature (payload : List Nat) (signature : Option String) (secret : String) :
    Except String Bool :=
  match signature with
  | none => Except.ok true
  | some sig =>
    if secret == "" || sig == "" then Except.ok true
    else compare_digest ("sha256=" ++ hmacSha256Hex secret payload) sig

/-- Parsed XML element as produced by `xml.etree.ElementTree`: tag name,
attribute dict, text before the first child (`None` when absent), and the
list of child elements in document order. -/
inductive Element where
  | mk : String → List (String × String) → Option String → List Element → Element
deriving Repr

/-- Tag name of an element. -/
def Element.tag : Element → String
  | .mk t _ _ _ => t

/-- Attribute dict of an element. -/
def Element.attrib : Element → List (String × String)
  | .mk _ a _ _ => a

/-- Text content of an element (text before the first child). -/
def Element.text : Element → Option String
  | .mk _ _ t _ => t

/-- Child elements in document order. -/
def Element.children : Element → List Element
  | .mk _ _ _ cs => cs

/-- Python whitespace test at the character level, the set stripped by
`str.strip()` (`str.isspace()`): ASCII whitespace `\x09`-`\x0d` and space,
the information separators `\x1c`-`\x1f`, next line `\x85`, no-break space
`\xa0`, and the Unicode space and line/paragraph separators. -/
def isSpaceChar (c : Char) : Bool :=
  (9 ≤ c.toNat && c.toNat ≤ 13) || (28 ≤ c.toNat && c.toNat ≤ 32) ||
  c.toNat == 133 || c.toNat == 160 || c.toNat == 5760 ||
  (8192 ≤ c.toNat && c.toNat ≤ 8202) || c.toNat == 8232 || c.toNat == 8233 ||
  c.toNat == 8239 || c.toNat == 8287 || c.toNat == 12288

/-- Python's `s.strip()`: remove leading and trailing whitespace. -/
def pyStrip (s : String) : String :=
  ⟨((s.data.dropWhile isSpaceChar).reverse.dropWhile isSpaceChar).reverse⟩

/-- Attribute dict as an `XVal` object with string values, the shape in
which `xml_to_dict` stores `element.attrib`. -/
def attribObj (attrib : List (String × String)) : XVal :=
  XVal.obj (attrib.map (fun p => (p.1, XVal.str p.2)))

/-- Initial `result` dict of `xml_to_dict`: empty, except that a non-empty
attribute dict is stored under the reserved key `"@attributes"`. -/
def elemBase (attrib : List (String × String)) : List (String × XVal) :=
  if attrib.isEmpty then [] else dSet [] "@attributes" (attribObj attrib)

/-- Child insertion step of `xml_to_dict` (lines 103-110 of `app.py`): a
first occurrence of a tag is stored directly; a repeated tag promotes the
existing value to a singleton list if needed and appends the new data. -/
def addChild (result : List (String × XVal)) (tag : String) (child_data : XVal) :
    List (String × XVal) :=
  match dGet result tag with
  | some (XVal.list l) => dSet result tag (XVal.list (l ++ [child_data]))
  | some v => dSet result tag (XVal.list [v, child_data])
  | none => dSet result tag child_data

mutual

/-- Embedding of the inner `xml_to_dict(element)` of `app.py`: attributes
under `"@attributes"`, a text-only element collapses to its trimmed text,
mixed content keeps the text under `"#text"`, and children are folded in
document order with `addChild`. Python's `element.text and
element.text.strip()` is true exactly when the text is present and strips
to a non-empty string. -/
def xml_to_dict : Element → XVal
  | .mk _ attrib text children =>
    let result := elemBase attrib
    match text with
    | some t =>
      if pyStrip t ≠ "" then
        if children.isEmpty then XVal.str (pyStrip t)
        else XVal.obj (xml_children children (dSet result "#text" (XVal.str (pyStrip t))))
      else XVal.obj (xml_children children result)
    | none => XVal.obj (xml_children children result)

/-- Fold of the `for child in element` loop of `xml_to_dict` over the
remaining children, threading the `result` dict. -/
def xml_children : List Element → List (String × XVal) → List (String × XVal)
  | [], result => result
  | c :: cs, result => xml_children cs (addChild result c.tag (xml_to_dict c))

end

/-- Embedding of `parse_xml_to_dict(xml_string)` from `app.py`. The call
to the external parser `ET.fromstring` is passed in as an oracle
`fromstring`; an `Except.error` outcome stands for a raised
`ET.ParseError`, which the function catches and converts into the dict
`{"error": "Invalid XML", "raw_data": xml_string}`. -/
def parse_xml_to_dict (fromstring : String → Except String Element)
    (xml_string : String) : XVal :=
  match fromstring xml_string with
  | .ok root => XVal.obj [(root.tag, xml_to_dict root)]
  | .error _ => XVal.obj [("error", XVal.str "Invalid XML"), ("raw_data", XVal.str xml_string)]

/-- Check whether the pattern is a leading segment of the text. -/
def leadMatch : List Char → List Char → Bool
  | [], _ => true
  | _ :: _, [] => false
  | p :: ps, c :: cs => p == c && leadMatch ps cs

/-- Check whether the pattern occurs as a contiguous segment of the text. -/
def subMatch (pat : List Char) : List Char → Bool
  | [] => leadMatch pat []
  | c :: cs => leadMatch pat (c :: cs) || subMatch pat cs

/-- Python's substring test `pat in s` on strings. -/
def strContains (s pat : String) : Bool := subMatch pat.data s.data

/-- Split a character list at the first `=`, Python's
`name, eq, value = part.partition('=')`; without `=` the whole segment is
the name and the value is empty. -/
def breakEq : List Char → List Char × List Char
  | [] => ([], [])
  | c :: rest => if c = '=' then ([], rest) else
      let kv := breakEq rest
      (c :: kv.1, kv.2)

/-- Hex digit value used by percent-decoding. -/
def hexVal (c : Char) : Option Nat :=
  if '0' ≤ c ∧ c ≤ '9' then some (c.toNat - 48)
  else if 'a' ≤ c ∧ c ≤ 'f' then some (c.toNat - 87)
  else if 'A' ≤ c ∧ c ≤ 'F' then some (c.toNat - 55)
  else none

/-- Percent- and plus-decoding of a form token (ASCII-level model of the
standard url decoding used by the form parser). -/
def pctDecode : List Char → List Char
  | [] => []
  | '%' :: a :: b :: rest =>
    match hexVal a, hexVal b with
    | some x, some y => Char.ofNat (16 * x + y) :: pctDecode rest
    | _, _ => '%' :: pctDecode (a :: b :: rest)
  | '+' :: rest => ' ' :: pctDecode rest
  | c :: rest => c :: pctDecode rest

/-- Decode one `name=value` segment of an urlencoded body. -/
def parseFormPair (part : List Char) : String × String :=
  let kv := breakEq part
  (⟨pctDecode kv.1⟩, ⟨pctDecode kv.2⟩)

/-- Split a character list on `&` into its (possibly empty) segments. -/
def splitAmp : List Char → List (List Char)
  | [] => [[]]
  | c :: rest =>
    if c = '&' then [] :: splitAmp rest
    else
      match splitAmp rest with
      | t :: ts => (c :: t) :: ts
      | [] => [[c]]

/-- Decode an `application/x-www-form-urlencoded` body into its ordered
list of name/value pairs (empty segments dropped), the pair stream from
which the form `MultiDict` is built. -/
def parse_urlencoded (body : String) : List (String × String) :=
  ((splitAmp body.data).filter (fun p => p ≠ [])).map parseFormPair

/-- Insertion of one name/value pair into the `MultiDict` internal
storage: values accumulate per key in arrival order. -/
def multiAdd (md : List (String × List String)) (k v : String) :
    List (String × List String) :=
  match md with
  | [] => [(k, [v])]
  | (k', vs) :: rest => if k' = k then (k', vs ++ [v]) :: rest else (k', vs) :: multiAdd rest k v

/-- The werkzeug `MultiDict` built from a pair stream: internally a dict
from each name to the list of all its values, in insertion order. -/
def toMultiDict (ps : List (String × String)) : List (String × List String) :=
  ps.foldl (fun md p => multiAdd md p.1 p.2) []

/-- Python's `dict(request.form)`: werkzeug 2.0 and later override
`MultiDict.__iter__`, which disables CPython's dict-merge fast path on
dict subclasses, so the `dict` constructor falls back to iterating
`keys()` and reading each key through `__getitem__` — which returns the
FIRST value stored for the key. -/
def dictOfForm (md : List (String × List String)) : XVal :=
  XVal.obj (md.map (fun p => (p.1, XVal.str (p.2.headD ""))))

/-- Effective content type: Python's `request.content_type or 'unknown'`
(absent or empty becomes `"unknown"`). -/
def effContentType : Option String → String
  | none => "unknown"
  | some c => if c == "" then "unknown" else c

/-- Embedding of the content-type dispatch of `webhook_receiver`
(lines 149-181 of `app.py`). External effects are oracles: `get_json_res`
is the outcome of `request.get_json()` (`Except.error` for a raised
parse/decode exception — invalid JSON or an empty body —, `.ok none` for a
`None` return), `fromstring` is the XML parser, and `multipart_form` /
`files` are the already-parsed multipart form and upload file names. The
body is the decoded text `request.get_data(as_text=True)`. -/
def webhook_dispatch (raw_ct : Option String) (body : String)
    (get_json_res : Except String (Option XVal))
    (fromstring : String → Except String Element)
    (multipart_form : List (String × List String))
    (files : List String) : XVal :=
  let content_type := effContentType raw_ct
  if strContains content_type "application/json" then
    match get_json_res with
    | .ok (some v) => v
    | .ok none => XVal.obj [("raw_body", XVal.str body)]
    | .error _ => XVal.obj [("error", XVal.str "Invalid JSON"), ("raw_body", XVal.str body)]
  else if strContains content_type "application/xml" || strContains content_type "text/xml" then
    parse_xml_to_dict fromstring body
  else if strContains content_type "application/x-www-form-urlencoded" then
    dictOfForm (toMultiDict (parse_urlencoded body))
  else if strContains content_type "multipart/form-data" then
    XVal.obj [("form_data", dictOfForm multipart_form),
              ("files", XVal.list (files.map XVal.str))]
  else
    XVal.obj [("content_type", XVal.str content_type), ("raw_data", XVal.str body),
              ("size", XVal.num body.length)]

/-- List-ness test on a payload value, the embedding of Python's
`isinstance(x, list)` used by the repetition logic of `xml_to_dict`. -/
def XVal.isList : XVal → Bool
  | XVal.list _ => true
  | _ => false

/-- Accumulated representation of the values stored so far under one tag:
nothing, a single value stored directly, or the ordered list of values. -/
def tagAcc : List XVal → Option XVal
  | [] => none
  | [v] => some v
  | vs => some (XVal.list vs)

/-- First `<b>` child of the C6 example element. -/
def bOne : Element := Element.mk "b" [] (some "1") []

/-- Second `<b>` child of the C6 example element. -/
def bTwo : Element := Element.mk "b" [] (some "2") []

/-- Parsed element tree of `<a><b>1</b><b>2</b></a>`. -/
def abRepeated : Element := Element.mk "a" [] none [bOne, bTwo]

/-- Python truthiness of `element.text and element.text.strip()`: the text
is present and strips to a non-empty string. -/
def textTruthy : Option String → Bool
  | none => false
  | some t => !(pyStrip t == "")

/-- Presence of the reserved attributes key in a normalized value. -/
def hasAttrsKey : XVal → Bool
  | XVal.obj d => (dGet d "@attributes").isSome
  | _ => false

/-- Lookup in the `MultiDict` internal storage. -/
def mGet (md : List (String × List String)) (k : String) : Option (List String) :=
  match md with
  | [] => none
  | (k', vs) :: rest => if k' = k then some vs else mGet rest k

/-- Ordered list of the values carried by key `k` in a pair stream. -/
def valuesOf (ps : List (String × String)) (k : String) : List String :=
  (ps.filter (fun p => p.1 == k)).map (fun p => p.2)

/-- Extension of an optional value list by further values: appending
nothing changes nothing, appending to an absent entry creates it. -/
def optExtend (o : Option (List String)) (vs : List String) : Option (List String) :=
  match vs with
  | [] => o
  | _ => some (o.getD [] ++ vs)

/-- A stored key is found again by `dGet` after `dSet`. -/
theorem dGet_dSet_same (d : List (String × XVal)) (k : String) (v : XVal) :
    dGet (dSet d k v) k = some v := by
  induction d with
  | nil => simp [dGet, dSet]
  | cons p rest ih =>
    obtain ⟨k', v'⟩ := p
    by_cases hk : k' = k
    · simp [dGet, dSet, hk]
    · simp [dGet, dSet, hk, ih]

/-- Assignment at one key leaves lookups of other keys unchanged. -/
theorem dGet_dSet_ne (d : List (String × XVal)) (k k' : String) (v : XVal)
    (h : k' ≠ k) : dGet (dSet d k v) k' = dGet d k' := by
  induction d with
  | nil => simp [dGet, dSet, Ne.symm h]
  | cons p rest ih =>
    obtain ⟨k0, v0⟩ := p
    by_cases hk : k0 = k
    · subst hk
      simp [dGet, dSet, Ne.symm h]
    · simp only [dSet, if_neg hk, dGet]
      by_cases hk' : k0 = k'
      · simp [hk']
      · simp [hk', ih]

/-- Hex digits are ASCII characters. -/
theorem hexDigit_lt (n : Nat) (h : n < 16) : (hexDigit n).toNat < 128 := by
  interval_cases n <;> decide

/-- Big-endian word encoding produces byte values. -/
theorem be32_bytes_lt (n : Nat) : ∀ x ∈ be32 n, x < 256 := by
  intro x hx
  simp only [be32, List.mem_cons, List.not_mem_nil, or_false] at hx
  rcases hx with rfl | rfl | rfl | rfl <;> exact Nat.mod_lt _ (by omega)

/-- Every element of a SHA-256 digest is a byte value. -/
theorem sha256_bytes_lt (msg : List Nat) : ∀ x ∈ sha256 msg, x < 256 := by
  intro x hx
  simp only [sha256, List.mem_append] at hx
  rcases hx with ((((((h | h) | h) | h) | h) | h) | h) | h <;> exact be32_bytes_lt _ x h

/-- Hex encodings of byte sequences are ASCII strings. -/
theorem hexdigest_ascii (bs : List Nat) (h : ∀ x ∈ bs, x < 256) :
    isAsciiStr (hexdigest bs) = true := by
  induction bs with
  | nil => rfl
  | cons b rest ih =>
    have hb := h b (List.mem_cons_self _ _)
    have ih2 := ih (fun x hx => h x (List.mem_cons_of_mem _ hx))
    simp only [isAsciiStr, hexdigest, List.foldr_cons, List.all_cons, Bool.and_eq_true,
      decide_eq_true_eq] at ih2 ⊢
    exact ⟨hexDigit_lt _ (by omega), hexDigit_lt _ (by omega), ih2⟩

/-- ASCII-ness distributes over string concatenation. -/
theorem isAsciiStr_append (a b : String) :
    isAsciiStr (a ++ b) = (isAsciiStr a && isAsciiStr b) := by
  cases a with
  | mk la =>
    cases b with
    | mk lb => simp [isAsciiStr, String.append, List.all_append]

/-- The computed signature string is ASCII: the "sha256=" tag followed by
the hex digest of the HMAC, so `compare_digest` can only raise because of
the header-supplied side. -/
theorem expected_sig_ascii (secret : String) (payload : List Nat) :
    isAsciiStr ("sha256=" ++ hmacSha256Hex secret payload) = true := by
  have hh : isAsciiStr (hmacSha256Hex secret payload) = true := by
    show isAsciiStr (hexdigest (hmacSha256 (strToBytes secret) payload)) = true
    refine hexdigest_ascii _ (fun x hx => ?_)
    simp only [hmacSha256] at hx
    exact sha256_bytes_lt _ x hx
  rw [isAsciiStr_append, hh, Bool.and_true]
  decide

/-- Claim C1: for every non-empty secret and every body, verifying the
hex HMAC-SHA256 of the body under that secret, prefixed with "sha256=",
succeeds: signing then verifying round-trips to acceptance. -/
theorem claim_C1_sign_verify_roundtrip (secret : String) (payload : List Nat)
    (h : secret ≠ "") :
    verify_signature payload (some ("sha256=" ++ hmacSha256Hex secret payload)) secret =
      Except.ok true := by
  simp [verify_signature, compare_digest, expected_sig_ascii]

/-- Witness for C1 at the concrete secret "k" and body [1, 2, 3]. -/
theorem claim_C1_witness :
    verify_signature [1, 2, 3] (some ("sha256=" ++ hmacSha256Hex "k" [1, 2, 3])) "k" =
      Except.ok true :=
  claim_C1_sign_verify_roundtrip "k" [1, 2, 3] (by decide)

/-- Claim C2, counterexample to the claim as stated: two present
signatures different from the correct one (which always starts with
"sha256=") fail to be rejected — the empty string is accepted outright
because the guard tests the signature's truthiness, and a non-ASCII
signature makes `compare_digest` raise `TypeError` instead of returning
false. -/
theorem claim_C2_counterexample :
    verify_signature [] (some "") "k" = Except.ok true ∧
    verify_signature [] (some "é") "k" =
      Except.error "comparing strings with non-ASCII characters is not supported" ∧
    "" ≠ "sha256=" ++ hmacSha256Hex "k" [] ∧
    "é" ≠ "sha256=" ++ hmacSha256Hex "k" [] := by
  refine ⟨rfl, ?_, by decide, by decide⟩
  show compare_digest ("sha256=" ++ hmacSha256Hex "k" []) "é" = _
  simp [compare_digest, show isAsciiStr "é" = false from rfl]

/-- Claim C2 as amended: for every non-empty secret, every body, and every
present NON-EMPTY, ASCII signature different from the correct
"sha256="-prefixed hex HMAC-SHA256 of the body, verification returns
false. (A present empty signature is accepted, and a present non-ASCII
signature raises `TypeError` from `compare_digest` instead of returning,
per the counterexample.) -/
theorem claim_C2_reject_wrong_signature (secret sig : String) (payload : List Nat)
    (hsec : secret ≠ "") (hsig : sig ≠ "") (hascii : isAsciiStr sig = true)
    (hne : sig ≠ "sha256=" ++ hmacSha256Hex secret payload) :
    verify_signature payload (some sig) secret = Except.ok false := by
  simp [verify_signature, compare_digest, hsec, hsig, hascii, expected_sig_ascii]
  exact Ne.symm hne

/-- Witness for C2 (amended) at secret "k", body [], signature "x". -/
theorem claim_C2_witness :
    verify_signature [] (some "x") "k" = Except.ok false :=
  claim_C2_reject_wrong_signature "k" "x" [] (by decide) (by decide) (by decide) (by decide)

/-- Claim C8: verification is a no-op both when the secret is empty
(whatever the signature header holds) and when the secret is set but the
signature header is absent. -/
theorem claim_C8_disabled_verification (payload : List Nat) (sig : Option String)
    (secret : String) :
    verify_signature payload sig "" = Except.ok true ∧
    verify_signature payload none secret = Except.ok true := by
  constructor
  · cases sig with
    | none => rfl
    | some s => simp [verify_signature]
  · rfl

/-- Claim C10: a present but empty signature header bypasses verification
exactly like an absent one, even when a non-empty secret is configured,
because the guard tests Python truthiness rather than header presence. -/
theorem claim_C10_empty_signature_bypass (secret : String) (payload : List Nat)
    (h : secret ≠ "") :
    verify_signature payload (some "") secret = Except.ok true := by
  simp [verify_signature]

/-- Witness for C10 at the concrete secret "k" and body [1]. -/
theorem claim_C10_witness : verify_signature [1] (some "") "k" = Except.ok true :=
  claim_C10_empty_signature_bypass "k" [1] (by decide)

/-- The recursive result for a child element is never a bare list: it is
either a stripped text string or a dict. This is what makes the
`isinstance(result[child.tag], list)` test of `xml_to_dict` sound. -/
theorem xml_to_dict_isList (e : Element) : (xml_to_dict e).isList = false := by
  cases e with
  | mk t a tx cs =>
    rw [xml_to_dict.eq_def]
    dsimp only
    cases tx with
    | none => rfl
    | some s =>
      dsimp only
      by_cases hp : pyStrip s = ""
      · simp [hp, XVal.isList]
      · rw [if_pos hp]
        cases hcs : cs.isEmpty <;> simp [hcs, XVal.isList]

/-- Inserting a child under a different tag leaves a lookup unchanged. -/
theorem dGet_addChild_ne (res : List (String × XVal)) (tag t : String) (cd : XVal)
    (h : t ≠ tag) : dGet (addChild res tag cd) t = dGet res t := by
  unfold addChild
  split <;> rw [dGet_dSet_ne _ _ _ _ h]

/-- Processing children none of which carries tag `t` leaves the lookup of
`t` unchanged. -/
theorem dGet_xml_children_ne (cs : List Element) (res : List (String × XVal)) (t : String)
    (h : ∀ c ∈ cs, c.tag ≠ t) : dGet (xml_children cs res) t = dGet res t := by
  induction cs generalizing res with
  | nil => rfl
  | cons c cs ih =>
    rw [xml_children, ih _ (fun c hc => h c (List.mem_cons_of_mem _ hc)),
        dGet_addChild_ne _ _ _ _ (Ne.symm (h c (List.mem_cons_self _ _)))]

/-- One same-tag insertion advances the accumulated representation by one
value: a first value is stored directly, a second promotes it to a
two-element list, later ones are appended. -/
theorem dGet_addChild_same (res : List (String × XVal)) (t : String) (pr : List XVal)
    (cd : XVal) (hacc : dGet res t = tagAcc pr) (hpr : ∀ v ∈ pr, v.isList = false) :
    dGet (addChild res t cd) t = tagAcc (pr ++ [cd]) := by
  cases pr with
  | nil =>
    simp only [tagAcc] at hacc
    simp only [addChild, hacc, List.nil_append, tagAcc, dGet_dSet_same]
  | cons v vs =>
    cases vs with
    | nil =>
      simp only [tagAcc] at hacc
      have hv : v.isList = false := hpr v (List.mem_cons_self _ _)
      cases v with
      | list l => simp [XVal.isList] at hv
      | str s => simp only [addChild, hacc, tagAcc, dGet_dSet_same, List.cons_append,
          List.nil_append]
      | num n => simp only [addChild, hacc, tagAcc, dGet_dSet_same, List.cons_append,
          List.nil_append]
      | obj d => simp only [addChild, hacc, tagAcc, dGet_dSet_same, List.cons_append,
          List.nil_append]
    | cons w ws =>
      simp only [tagAcc] at hacc
      simp only [addChild, hacc, tagAcc, dGet_dSet_same, List.cons_append, List.nil_append]

/-- Main accumulation invariant of the child loop: after processing `cs`,
the value stored under tag `t` is the accumulated representation of the
previously stored values followed by the recursive results of exactly the
children of `cs` whose tag is `t`, in document order. -/
theorem xml_children_tagAcc (t : String) (cs : List Element) :
    ∀ (res : List (String × XVal)) (pr : List XVal),
      dGet res t = tagAcc pr →
      (∀ v ∈ pr, v.isList = false) →
      dGet (xml_children cs res) t =
        tagAcc (pr ++ (cs.filter (fun c => c.tag == t)).map xml_to_dict) := by
  induction cs with
  | nil =>
    intro res pr hacc _
    simpa [xml_children] using hacc
  | cons c cs ih =>
    intro res pr hacc hpr
    rw [xml_children]
    by_cases hc : c.tag = t
    · have h1 : dGet (addChild res c.tag (xml_to_dict c)) t =
          tagAcc (pr ++ [xml_to_dict c]) := by
        rw [hc]
        exact dGet_addChild_same res t pr (xml_to_dict c) hacc hpr
      have h2 : ∀ v ∈ pr ++ [xml_to_dict c], v.isList = false := by
        intro v hv
        rcases List.mem_append.1 hv with h | h
        · exact hpr v h
        · rw [List.mem_singleton.1 h]
          exact xml_to_dict_isList c
      rw [ih _ _ h1 h2]
      simp [List.filter_cons, hc, List.append_assoc]
    · have h1 : dGet (addChild res c.tag (xml_to_dict c)) t = tagAcc pr := by
        rw [dGet_addChild_ne _ _ _ _ (Ne.symm hc), hacc]
      rw [ih _ _ h1 hpr]
      simp [List.filter_cons, hc]

/-- For a tag other than the reserved attribute key, lookup in the initial
`result` dict of `xml_to_dict` finds nothing. -/
theorem dGet_elemBase_ne (attrib : List (String × String)) (t : String)
    (h : t ≠ "@attributes") : dGet (elemBase attrib) t = none := by
  unfold elemBase
  split
  · rfl
  · simp [dSet, dGet, Ne.symm h]

/-- Claim C6: within one element, the first child with tag `t` is stored
directly under `t`, and each later sibling with the same tag promotes to /
appends onto an ordered list, so the stored value is the single recursive
result for one occurrence and the ordered list of all recursive results
for two or more occurrences. -/
theorem claim_C6_repeated_tags (tg : String) (attrib : List (String × String))
    (text : Option String) (children : List Element) (t : String)
    (h1 : t ≠ "@attributes") (h2 : t ≠ "#text")
    (h3 : children.filter (fun c => c.tag == t) ≠ []) :
    ∃ d, xml_to_dict (Element.mk tg attrib text children) = XVal.obj d ∧
      dGet d t = tagAcc ((children.filter (fun c => c.tag == t)).map xml_to_dict) := by
  have hbase : dGet (elemBase attrib) t = none := dGet_elemBase_ne attrib t h1
  have hcs : children.isEmpty = false := by
    cases children with
    | nil => exact absurd rfl h3
    | cons a l => rfl
  rw [xml_to_dict.eq_def]
  dsimp only
  cases text with
  | none =>
    refine ⟨_, rfl, ?_⟩
    simpa using xml_children_tagAcc t children (elemBase attrib) []
      (by simpa [tagAcc] using hbase) (by simp)
  | some s =>
    dsimp only
    by_cases hp : pyStrip s = ""
    · rw [if_neg (by simp [hp])]
      refine ⟨_, rfl, ?_⟩
      simpa using xml_children_tagAcc t children (elemBase attrib) []
        (by simpa [tagAcc] using hbase) (by simp)
    · rw [if_pos hp, if_neg (by simp [hcs])]
      refine ⟨_, rfl, ?_⟩
      have hbase2 : dGet (dSet (elemBase attrib) "#text" (XVal.str (pyStrip s))) t = none := by
        rw [dGet_dSet_ne _ _ _ _ h2, hbase]
      simpa using xml_children_tagAcc t children _ []
        (by simpa [tagAcc] using hbase2) (by simp)

/-- Witness for C6: normalizing `<a><b>1</b><b>2</b></a>` yields
`{a: {b: ["1", "2"]}}`, and the general theorem instantiates at this
element for tag "b". -/
theorem claim_C6_witness :
    parse_xml_to_dict (fun _ => Except.ok abRepeated) "<a><b>1</b><b>2</b></a>" =
      XVal.obj [("a", XVal.obj [("b", XVal.list [XVal.str "1", XVal.str "2"])])] ∧
    (∃ d, xml_to_dict (Element.mk "a" [] none [bOne, bTwo]) = XVal.obj d ∧
      dGet d "b" = tagAcc (([bOne, bTwo].filter (fun c => c.tag == "b")).map xml_to_dict)) := by
  constructor
  · show XVal.obj [("a", xml_to_dict abRepeated)] = _
    unfold abRepeated bOne bTwo
    rw [xml_to_dict.eq_def]
    dsimp only
    rw [xml_children, xml_children, xml_children]
    rw [xml_to_dict.eq_def, xml_to_dict.eq_def]
    rfl
  · exact claim_C6_repeated_tags "a" [] none [bOne, bTwo] "b" (by decide) (by decide)
      (by simp [bOne, bTwo, Element.tag])

/-- Claim C4, counterexample to the claim as stated: an element with
attributes AND non-whitespace text AND no children collapses to its bare
text, so its attributes are dropped and no "@attributes" mapping survives
(the claim asserted the attributes key is kept regardless of text). -/
theorem claim_C4_counterexample :
    (Element.mk "a" [("id", "5")] (some "hi") []).attrib ≠ [] ∧
    xml_to_dict (Element.mk "a" [("id", "5")] (some "hi") []) = XVal.str "hi" ∧
    hasAttrsKey (xml_to_dict (Element.mk "a" [("id", "5")] (some "hi") [])) = false := by
  refine ⟨by simp [Element.attrib], ?_, ?_⟩
  · rw [xml_to_dict.eq_def]
    rfl
  · rw [xml_to_dict.eq_def]
    rfl

/-- Claim C4 as amended: for every element with attributes that does not
collapse to a text scalar (that is, unless it has non-whitespace text and
no children), the normalized representation is a dict containing the
attribute mapping under the reserved key "@attributes". -/
theorem claim_C4_attributes_key (tg : String) (attrib : List (String × String))
    (text : Option String) (children : List Element)
    (h1 : attrib ≠ [])
    (h2 : ¬ (textTruthy text = true ∧ children = []))
    (h3 : ∀ c ∈ children, c.tag ≠ "@attributes") :
    ∃ d, xml_to_dict (Element.mk tg attrib text children) = XVal.obj d ∧
      dGet d "@attributes" = some (attribObj attrib) := by
  have hbase : dGet (elemBase attrib) "@attributes" = some (attribObj attrib) := by
    unfold elemBase
    rw [if_neg (by simpa [List.isEmpty_iff] using h1)]
    simp [dSet, dGet]
  rw [xml_to_dict.eq_def]
  dsimp only
  cases text with
  | none => exact ⟨_, rfl, by rw [dGet_xml_children_ne _ _ _ h3, hbase]⟩
  | some s =>
    dsimp only
    by_cases hp : pyStrip s = ""
    · rw [if_neg (by simp [hp])]
      exact ⟨_, rfl, by rw [dGet_xml_children_ne _ _ _ h3, hbase]⟩
    · rw [if_pos hp]
      have hcs : children.isEmpty = false := by
        cases children with
        | nil => exact absurd ⟨by simp [textTruthy, hp], rfl⟩ h2
        | cons a l => rfl
      rw [if_neg (by simp [hcs])]
      refine ⟨_, rfl, ?_⟩
      rw [dGet_xml_children_ne _ _ _ h3, dGet_dSet_ne _ _ _ _ (by decide), hbase]

/-- Witness for C4 (amended): normalizing `<a id="5"/>` keeps the
attributes under "@attributes", the general theorem instantiates there,
and it also covers the whitespace boundary: an element whose text is a
no-break space (stripped to nothing by `str.strip()`) keeps its
attributes too. -/
theorem claim_C4_witness :
    xml_to_dict (Element.mk "a" [("id", "5")] none []) =
      XVal.obj [("@attributes", XVal.obj [("id", XVal.str "5")])] ∧
    (∃ d, xml_to_dict (Element.mk "a" [("id", "5")] none []) = XVal.obj d ∧
      dGet d "@attributes" = some (attribObj [("id", "5")])) ∧
    (∃ d, xml_to_dict (Element.mk "a" [("id", "5")] (some "\u00A0") []) = XVal.obj d ∧
      dGet d "@attributes" = some (attribObj [("id", "5")])) := by
  refine ⟨?_, ?_, ?_⟩
  · rw [xml_to_dict.eq_def]
    rfl
  · exact claim_C4_attributes_key "a" [("id", "5")] none [] (by simp) (by simp [textTruthy])
      (by simp)
  · exact claim_C4_attributes_key "a" [("id", "5")] (some "\u00A0") [] (by simp)
      (fun hc => absurd hc.1 (by decide)) (by simp)

/-- Claim C5: when XML parsing fails (the parser oracle raises
`ParseError`), `parse_xml_to_dict` returns the error dict carrying the
original input string verbatim under "raw_data"; the embedding is a total
function, so no fault propagates past the handler. -/
theorem claim_C5_parse_failure (fromstring : String → Except String Element)
    (s err : String) (h : fromstring s = Except.error err) :
    parse_xml_to_dict fromstring s =
      XVal.obj [("error", XVal.str "Invalid XML"), ("raw_data", XVal.str s)] := by
  unfold parse_xml_to_dict
  rw [h]

/-- Witness for C5 on the malformed input `<a><b></a>` (mismatched tags). -/
theorem claim_C5_witness :
    parse_xml_to_dict (fun _ => Except.error "mismatched tag") "<a><b></a>" =
      XVal.obj [("error", XVal.str "Invalid XML"), ("raw_data", XVal.str "<a><b></a>")] :=
  claim_C5_parse_failure (fun _ => Except.error "mismatched tag") "<a><b></a>" "mismatched tag" rfl

/-- Adding a pair stores its value at the end of its key's value list. -/
theorem mGet_multiAdd_same (md : List (String × List String)) (k v : String) :
    mGet (multiAdd md k v) k = some ((mGet md k).getD [] ++ [v]) := by
  induction md with
  | nil => simp [multiAdd, mGet]
  | cons p rest ih =>
    obtain ⟨k0, vs0⟩ := p
    by_cases hk : k0 = k
    · simp [multiAdd, mGet, hk]
    · simp [multiAdd, mGet, hk, ih]

/-- Adding a pair leaves the value lists of other keys unchanged. -/
theorem mGet_multiAdd_ne (md : List (String × List String)) (k k' v : String)
    (h : k' ≠ k) : mGet (multiAdd md k v) k' = mGet md k' := by
  induction md with
  | nil => simp [multiAdd, mGet, Ne.symm h]
  | cons p rest ih =>
    obtain ⟨k0, vs0⟩ := p
    by_cases hk : k0 = k
    · subst hk
      simp [multiAdd, mGet, Ne.symm h]
    · simp only [multiAdd, if_neg hk, mGet]
      by_cases hk' : k0 = k'
      · simp [hk']
      · simp [hk', ih]

/-- Extending by one value and then by a tail is extending by the whole. -/
theorem optExtend_snoc (o : Option (List String)) (v : String) (vs : List String) :
    optExtend (some (o.getD [] ++ [v])) vs = optExtend o (v :: vs) := by
  cases vs with
  | nil => simp [optExtend]
  | cons w ws => simp [optExtend]

/-- The `MultiDict` fold accumulates, per key, exactly the values carried
by that key in the pair stream, in order. -/
theorem mGet_foldl_multiAdd (ps : List (String × String)) :
    ∀ (md : List (String × List String)) (k : String),
      mGet (ps.foldl (fun md p => multiAdd md p.1 p.2) md) k =
        optExtend (mGet md k) (valuesOf ps k) := by
  induction ps with
  | nil =>
    intro md k
    simp [valuesOf, optExtend]
  | cons p ps ih =>
    intro md k
    obtain ⟨k0, v0⟩ := p
    rw [List.foldl_cons, ih]
    by_cases hk : k0 = k
    · subst hk
      rw [mGet_multiAdd_same, optExtend_snoc]
      simp [valuesOf, List.filter_cons]
    · rw [mGet_multiAdd_ne _ _ _ _ (Ne.symm hk)]
      simp [valuesOf, List.filter_cons, hk]

/-- Per-key contents of the form `MultiDict`: the ordered list of all the
values of that key, or nothing when the key never occurs. -/
theorem mGet_toMultiDict (ps : List (String × String)) (k : String) :
    mGet (toMultiDict ps) k = optExtend none (valuesOf ps k) := by
  unfold toMultiDict
  rw [mGet_foldl_multiAdd]
  rfl

/-- Lookup in the dict produced by `dict(request.form)` mirrors lookup in
the `MultiDict` internal storage, each value list reduced to its first
value as `__getitem__` does. -/
theorem dGet_formMap (md : List (String × List String)) (k : String) :
    dGet (md.map (fun p => (p.1, XVal.str (p.2.headD "")))) k =
      (mGet md k).map (fun vs => XVal.str (vs.headD "")) := by
  induction md with
  | nil => rfl
  | cons p rest ih =>
    obtain ⟨k0, vs0⟩ := p
    by_cases hk : k0 = k
    · simp [dGet, mGet, hk]
    · simpa [dGet, mGet, hk] using ih

/-- Claim C3, counterexample to the claim as stated: on a form body with a
repeated field, `dict(request.form)` reads each key through the
`MultiDict`'s `__getitem__`, which returns the FIRST value, so `a=1&a=2`
decodes to `{a: "1"}` and not to the claimed last-value-wins mapping
`{a: "2"}`. -/
theorem claim_C3_counterexample :
    webhook_dispatch (some "application/x-www-form-urlencoded") "a=1&a=2" (Except.ok none)
        (fun _ => Except.error "") [] [] =
      XVal.obj [("a", XVal.str "1")] ∧
    XVal.obj [("a", XVal.str "1")] ≠ XVal.obj [("a", XVal.str "2")] := by
  refine ⟨rfl, ?_⟩
  simp

/-- Claim C3 as amended: on form-urlencoded content (not also matching an
earlier JSON/XML branch), dispatch returns a flat mapping from each field
name to the FIRST value submitted for it — duplicates lose their later
values, so a=1&a=2 yields a = "1", not the claimed last-value-wins
a = "2". -/
theorem claim_C3_form_first_value (ct body : String)
    (hj : strContains ct "application/json" = false)
    (hx1 : strContains ct "application/xml" = false)
    (hx2 : strContains ct "text/xml" = false)
    (hf : strContains ct "application/x-www-form-urlencoded" = true)
    (jr : Except String (Option XVal)) (fromstring : String → Except String Element)
    (mf : List (String × List String)) (fl : List String) :
    ∃ d, webhook_dispatch (some ct) body jr fromstring mf fl = XVal.obj d ∧
      ∀ k, dGet d k =
        match valuesOf (parse_urlencoded body) k with
        | [] => none
        | v :: _ => some (XVal.str v) := by
  have hct : (ct == "") = false := by
    rw [beq_eq_false_iff_ne]
    intro h
    subst h
    exact absurd hf (by decide)
  simp only [webhook_dispatch, effContentType, hct, Bool.false_eq_true, if_false,
    hj, hx1, hx2, hf, Bool.or_self, if_true, dictOfForm]
  refine ⟨_, rfl, ?_⟩
  intro k
  rw [dGet_formMap, mGet_toMultiDict]
  cases hv : valuesOf (parse_urlencoded body) k with
  | nil => simp [optExtend]
  | cons v ws => simp [optExtend, List.headD]

/-- Witness for C3 (amended) on the body `a=1&a=2`: the result is
`{a: "1"}` (first value), and the general theorem instantiates there. -/
theorem claim_C3_witness :
    webhook_dispatch (some "application/x-www-form-urlencoded") "a=1&a=2" (Except.ok none)
        (fun _ => Except.error "") [] [] = XVal.obj [("a", XVal.str "1")] ∧
    (∃ d, webhook_dispatch (some "application/x-www-form-urlencoded") "a=1&a=2" (Except.ok none)
        (fun _ => Except.error "") [] [] = XVal.obj d ∧
      ∀ k, dGet d k =
        match valuesOf (parse_urlencoded "a=1&a=2") k with
        | [] => none
        | v :: _ => some (XVal.str v)) :=
  ⟨rfl, claim_C3_form_first_value "application/x-www-form-urlencoded" "a=1&a=2"
    (by decide) (by decide) (by decide) (by decide) (Except.ok none)
    (fun _ => Except.error "") [] []⟩

/-- Claim C7: on JSON content, when `request.get_json()` raises (invalid
JSON, or an empty body, both of which raise a decode error in the HTTP
layer), dispatch produces the fallback dict with the error marker and the
raw body text, and no exception escapes the branch. -/
theorem claim_C7_invalid_json_fallback (ct body err : String)
    (fromstring : String → Except String Element)
    (mf : List (String × List String)) (fl : List String)
    (h : strContains ct "application/json" = true) :
    webhook_dispatch (some ct) body (Except.error err) fromstring mf fl =
      XVal.obj [("error", XVal.str "Invalid JSON"), ("raw_body", XVal.str body)] := by
  have hct : (ct == "") = false := by
    rw [beq_eq_false_iff_ne]
    intro hh
    subst hh
    exact absurd h (by decide)
  simp [webhook_dispatch, effContentType, hct, h]

/-- Witness for C7: content type `application/json`, body
`not valid json`, decoder raising. -/
theorem claim_C7_witness :
    webhook_dispatch (some "application/json") "not valid json"
        (Except.error "Expecting value") (fun _ => Except.error "") [] [] =
      XVal.obj [("error", XVal.str "Invalid JSON"), ("raw_body", XVal.str "not valid json")] :=
  claim_C7_invalid_json_fallback "application/json" "not valid json" "Expecting value"
    (fun _ => Except.error "") [] [] (by decide)

/-- Claim C9 as amended: on a content type matching none of the four
recognized branches (including an absent one, which becomes "unknown"),
dispatch produces the raw-blob dict carrying the content type, the raw
decoded text, and a size equal to the CHARACTER COUNT of the decoded text
(Python's `len` on a `str`) — which equals the byte length only for
ASCII bodies. -/
theorem claim_C9_raw_blob (raw_ct : Option String) (body : String)
    (jr : Except String (Option XVal)) (fromstring : String → Except String Element)
    (mf : List (String × List String)) (fl : List String)
    (h1 : strContains (effContentType raw_ct) "application/json" = false)
    (h2 : strContains (effContentType raw_ct) "application/xml" = false)
    (h3 : strContains (effContentType raw_ct) "text/xml" = false)
    (h4 : strContains (effContentType raw_ct) "application/x-www-form-urlencoded" = false)
    (h5 : strContains (effContentType raw_ct) "multipart/form-data" = false) :
    webhook_dispatch raw_ct body jr fromstring mf fl =
      XVal.obj [("content_type", XVal.str (effContentType raw_ct)),
                ("raw_data", XVal.str body), ("size", XVal.num body.length)] := by
  simp [webhook_dispatch, h1, h2, h3, h4, h5]

/-- Claim C9, counterexample to the claim as stated: for the non-ASCII
body "é" (one character, two UTF-8 bytes) under an unrecognized content
type, the stored size is 1, the character count, while the body's byte
length is 2. -/
theorem claim_C9_counterexample :
    webhook_dispatch (some "application/octet-stream") "é" (Except.ok none)
        (fun _ => Except.error "") [] [] =
      XVal.obj [("content_type", XVal.str "application/octet-stream"),
                ("raw_data", XVal.str "é"), ("size", XVal.num 1)] ∧
    (strToBytes "é").length = 2 ∧ (1 : Nat) ≠ 2 :=
  ⟨rfl, rfl, by decide⟩

/-- Witness for C9 (amended): a ten-character ASCII body under
`application/octet-stream` yields a raw blob with size 10. -/
theorem claim_C9_witness :
    webhook_dispatch (some "application/octet-stream") "0123456789" (Except.ok none)
        (fun _ => Except.error "") [] [] =
      XVal.obj [("content_type", XVal.str (effContentType (some "application/octet-stream"))),
                ("raw_data", XVal.str "0123456789"), ("size", XVal.num "0123456789".length)] ∧
    "0123456789".length = 10 :=
  ⟨claim_C9_raw_blob (some "application/octet-stream") "0123456789" (Except.ok none)
      (fun _ => Except.error "") [] [] (by decide) (by decide) (by decide) (by decide)
      (by decide),
    rfl⟩
